import Mathlib

/-!
# Shallow embedding of the Conversation Harvesting & Incremental Export Engine

This file models the pure core of the TypeScript repository:

* `ConversationSaver` (src/unnamed/part_005): the response-harvester merge
  (`observeMerge`, from the `page.on "response"` handler), backward pagination
  (`fetchNextPages`), and the final chronological sort (`loadThreadFinalize`).
* `listConversations` (src/unnamed/part_002): `parseLibraryTimestamp` and
  `shouldReDownload`.
* `utils.ts`: `loadDoneFile` migration, `isProcessed`, `markProcessed`.
* `DownloadManager.ts`: the single-slot `waitForDownload` promise.
* `runAutoExport` (src/unnamed/part_003): the bounded retry loop for one
  record and its effect on the incremental state store and error log.

Modelling conventions: timestamps are epoch milliseconds as `Int`
(an idealized fixed-offset calendar, so the JS `setSeconds`/`setMinutes`/
`setHours`/`setDate` relative mutations are exact epoch subtractions);
month arithmetic and absolute-date parsing, which depend on the JS `Date`
calendar, are parameters of `JsDateEnv`.  JS `null`/`undefined`/empty-string
falsiness on strings is modelled by `Option String` plus `jsTruthy`.
JS objects used as string-keyed maps are association lists with
first-insertion key order (`upsertProcessed`).  Effects (file writes,
error logs) are returned explicitly in result records.
-/

/-- One element of `ConversationResponse.entries`
(src/types/conversation.ts).  Only the fields the harvesting core reads
are modelled: the dedup key `uuid` and the two timestamp fields used by
the final sort and by `markProcessed`.  A timestamp field is `none` when
the JS value is absent or the empty string (falsy). -/
structure ConversationEntry where
  uuid : String
  updated_datetime : Option Int
  entry_updated_datetime : Option Int
  deriving Repr, DecidableEq

/-- The record-detail payload (src/types/conversation.ts,
`ConversationResponse`): an entry sequence plus the backward-pagination
flag and cursor.  `next_cursor = none` models JS `null`/`undefined`. -/
structure ConversationResponse where
  entries : List ConversationEntry
  has_next_page : Bool
  next_cursor : Option String
  deriving Repr, DecidableEq

/-- JS truthiness of a nullable string: `null`/`undefined` and `""` are
falsy, every other string is truthy. -/
def jsTruthy : Option String → Bool
  | none => false
  | some s => s ≠ ""

/-- The dedup loop shared by the harvester merge (part_005 lines 72-80)
and the pagination fetch (part_005 lines 527-533): walk the incoming
entries keeping those whose `uuid` is not in `seen`, adding each kept
uuid to `seen` as it goes. -/
def mergeLoop (seen : List String) : List ConversationEntry → List ConversationEntry
  | [] => []
  | e :: rest =>
    if e.uuid ∈ seen then mergeLoop seen rest
    else e :: mergeLoop (e.uuid :: seen) rest

/-- `hasCursor` from the response handler (part_005 line 64):
`!!(data.has_next_page || data.next_cursor)`. -/
def hasCursorOf (data : ConversationResponse) : Bool :=
  data.has_next_page || jsTruthy data.next_cursor

/-- The harvester merge for a subsequent observation of an
already-buffered thread id (part_005 lines 70-90): append incoming
entries whose uuid is unseen, and overwrite the pagination flag/cursor
only when the incoming observation's `hasCursor` is truthy. -/
def observeMerge (existing data : ConversationResponse) : ConversationResponse :=
  let merged := existing.entries ++ mergeLoop (existing.entries.map (·.uuid)) data.entries
  { existing with
    entries := merged
    has_next_page := if hasCursorOf data then data.has_next_page else existing.has_next_page
    next_cursor := if hasCursorOf data then data.next_cursor else existing.next_cursor }

/-- The full response-handler buffer update (part_005 lines 67-90):
first observation for a thread id becomes the buffer, later ones merge. -/
def observeResponse (buffer : Option ConversationResponse) (data : ConversationResponse) :
    ConversationResponse :=
  match buffer with
  | none => data
  | some existing => observeMerge existing data

/-- The sort key of the final chronological sort (part_005 lines 621-624):
`new Date(a.updated_datetime || a.entry_updated_datetime || 0).getTime()`. -/
def entrySortKey (e : ConversationEntry) : Int :=
  match e.updated_datetime with
  | some t => t
  | none =>
    match e.entry_updated_datetime with
    | some t => t
    | none => 0

/-- The comparator of the final sort: `timeA - timeB ≤ 0`. -/
def entryLe (a b : ConversationEntry) : Bool :=
  entrySortKey a ≤ entrySortKey b

/-- The final sort of `loadThreadFromURL` (part_005 lines 620-625).
JS `Array.prototype.sort` with the comparator `timeA - timeB` is a stable
sort by `entrySortKey`; `List.mergeSort` with `entryLe` is the same
stable sort. -/
def sortEntries (l : List ConversationEntry) : List ConversationEntry :=
  l.mergeSort entryLe

/-- The tail of `loadThreadFromURL` (part_005 lines 620-632): the
assembled conversation with its entries chronologically sorted. -/
def loadThreadFinalize (conv : ConversationResponse) : ConversationResponse :=
  { conv with entries := sortEntries conv.entries }

/-- One response of the in-page `fetch` used by `fetchNextPages`
(part_005 lines 495-512): either the API payload, or the synthesized
error object `{error, entries: [], has_next_page: false, next_cursor: null}`
produced on a non-OK status or a thrown exception. -/
structure PageResponse where
  error : Option String
  entries : List ConversationEntry
  has_next_page : Bool
  next_cursor : Option String
  deriving Repr, DecidableEq

/-- The `while (hasNext && cursor)` loop of `fetchNextPages`
(part_005 lines 489-547), with the successive server responses supplied
as the list `responses` (one consumed per page request issued).
State carried: `allEntries` (new entries are unshifted to the front),
`seen` (the uuid dedup set), and `requests`, the number of page fetches
issued so far.  When `responses` is exhausted while the loop would
continue, the loop stops (no further response is observable in the
model).  The contradiction guard (lines 543-546) clears `hasNext` when
the server reports more pages with a falsy cursor. -/
def fetchPagesLoop (hasNext : Bool) (cursor : Option String)
    (allEntries : List ConversationEntry) (seen : List String) (requests : Nat) :
    List PageResponse → List ConversationEntry × Nat
  | [] => (allEntries, requests)
  | r :: rest =>
    if hasNext ∧ jsTruthy cursor then
      let requests' := requests + 1
      if r.error.isSome then (allEntries, requests')
      else if r.entries.isEmpty then (allEntries, requests')
      else
        let newEntries := mergeLoop seen r.entries
        let allEntries' := newEntries ++ allEntries
        let seen' := newEntries.map (·.uuid) ++ seen
        let hasNext' := if r.has_next_page ∧ ¬ jsTruthy r.next_cursor then false
                        else r.has_next_page
        fetchPagesLoop hasNext' r.next_cursor allEntries' seen' requests' rest
    else (allEntries, requests)

/-- `fetchNextPages` (part_005 lines 482-561): walk backward pagination
from `firstPage`, then return the conversation with
`has_next_page := false` and `next_cursor := null` (lines 555-560),
together with the number of page requests issued. -/
def fetchNextPages (firstPage : ConversationResponse) (responses : List PageResponse) :
    ConversationResponse × Nat :=
  let r := fetchPagesLoop firstPage.has_next_page firstPage.next_cursor
    firstPage.entries (firstPage.entries.map (·.uuid)) 0 responses
  ({ firstPage with entries := r.1, has_next_page := false, next_cursor := none }, r.2)

/-- Substring occurrence over character lists (string processing is
modelled over `List Char` throughout, matching JS string semantics for
the ASCII texts involved). -/
def containsChars (pat : List Char) : List Char → Bool
  | [] => pat.isEmpty
  | c :: rest => pat.isPrefixOf (c :: rest) || containsChars pat rest

/-- Substring test (JS `String.prototype.includes`). -/
def containsStr (s pat : String) : Bool :=
  containsChars pat.data s.data

/-- Whitespace trim at both ends (JS `String.prototype.trim`). -/
def trimChars (l : List Char) : List Char :=
  ((l.dropWhile Char.isWhitespace).reverse.dropWhile Char.isWhitespace).reverse

/-- JS `parseInt` on a nonempty run of decimal digits. -/
def digitsToNat (l : List Char) : Nat :=
  l.foldl (fun n c => 10 * n + (c.toNat - '0'.toNat)) 0

/-- The calendar-dependent pieces of the JS `Date` environment used by
`parseLibraryTimestamp` (part_002): `parseAbsolute` is `new Date(text)`
(`none` for an invalid date), `subMonths d n` is
`d.setMonth(d.getMonth() - n)`, and `endOfDay d` is
`d.setHours(23, 59, 59, 999)`. -/
structure JsDateEnv where
  parseAbsolute : String → Option Int
  subMonths : Int → Nat → Int
  endOfDay : Int → Int

/-- The `replace(/CCL$/i, "")` cleanup of part_002 line 38: drop a
trailing case-insensitive "CCL". -/
def stripCCL (l : List Char) : List Char :=
  if ['c', 'c', 'l'].isSuffixOf (l.map Char.toLower) then l.take (l.length - 3) else l

/-- A JS word character, for the `\b` boundary in `/^(\d+)([smhd])\b/`. -/
def isWordChar (c : Char) : Bool :=
  c.isAlphanum || c = '_'

/-- Match `/^(\d+)([smhd])\b/` (part_002 line 41) against the cleaned,
lowercased text: a maximal leading digit run, one of `s m h d`, then a
word boundary. -/
def matchShortRel (l : List Char) : Option (Nat × Char) :=
  let digits := l.takeWhile Char.isDigit
  if digits.isEmpty then none
  else
    match l.dropWhile Char.isDigit with
    | [] => none
    | c :: tail =>
      if (c = 's' ∨ c = 'm' ∨ c = 'h' ∨ c = 'd') ∧
          (tail = [] ∨ isWordChar (tail.headD ' ') = false) then
        some (digitsToNat digits, c)
      else none

/-- The relative units of `/^(\d+)\s+(second|minute|hour|day|week|month)s?\s+ago$/`
(part_002 line 56). -/
def relUnitNames : List String :=
  ["second", "minute", "hour", "day", "week", "month"]

/-- Match `/^(\d+)\s+(second|minute|hour|day|week|month)s?\s+ago$/`
(part_002 line 56) against the cleaned, lowercased text. -/
def matchLongRel (l : List Char) : Option (Nat × String) :=
  let digits := l.takeWhile Char.isDigit
  if digits.isEmpty then none
  else
    let rest := l.dropWhile Char.isDigit
    let ws := rest.takeWhile Char.isWhitespace
    if ws.isEmpty then none
    else
      let afterWs := rest.dropWhile Char.isWhitespace
      match relUnitNames.find? (fun u => u.data.isPrefixOf afterWs) with
      | none => none
      | some u =>
        let afterUnit := afterWs.drop u.data.length
        let afterPlural := match afterUnit with
          | 's' :: r => r
          | r => r
        let ws2 := afterPlural.takeWhile Char.isWhitespace
        if ws2.isEmpty then none
        else if afterPlural.dropWhile Char.isWhitespace = ['a', 'g', 'o'] then
          some (digitsToNat digits, u)
        else none

/-- Milliseconds for one unit of the relative grammar, in the idealized
fixed-offset calendar (`setSeconds`/`setMinutes`/`setHours`/`setDate`
relative mutations are exact epoch subtractions; months go through
`JsDateEnv.subMonths`). -/
def unitMs : String → Int
  | "second" => 1000
  | "minute" => 60000
  | "hour" => 3600000
  | "day" => 86400000
  | "week" => 604800000
  | _ => 0

/-- `parseLibraryTimestamp` (part_002 lines 35-87): clean the text, try
the `1h`-style shorthand, then the `"N unit(s) ago"` relative phrase,
then `"just now"`/`"now"`, then an absolute date via `new Date(text)`,
bumped to end of day when the raw text carries no time component.
Returns the parsed epoch-ms timestamp, or `none` on failure. -/
def parseLibraryTimestamp (env : JsDateEnv) (now : Int) (text : String) : Option Int :=
  if text = "" then none
  else
    let t := (trimChars (stripCCL (trimChars text.data))).map Char.toLower
    match matchShortRel t with
    | some (amount, unit) =>
      let ms := match unit with
        | 's' => unitMs "second"
        | 'm' => unitMs "minute"
        | 'h' => unitMs "hour"
        | _ => unitMs "day"
      some (now - amount * ms)
    | none =>
      match matchLongRel t with
      | some (amount, u) =>
        if u = "month" then some (env.subMonths now amount)
        else some (now - amount * unitMs u)
      | none =>
        if t = "just now".data ∨ t = "now".data then some now
        else
          match env.parseAbsolute (String.mk (trimChars text.data)) with
          | none => none
          | some d =>
            if containsChars [':'] text.data ∨
                containsChars ['a', 'm'] (text.data.map Char.toLower) ∨
                containsChars ['p', 'm'] (text.data.map Char.toLower) then some d
            else some (env.endOfDay d)

/-- One value of the `done.json` map (src/types.ts `ProcessedThread`):
`lastUpdated` is the thread API's latest entry `updated_datetime`,
`downloadedAt` the local download time; both ISO strings modelled as
epoch ms. -/
structure ProcessedThread where
  lastUpdated : Int
  downloadedAt : Int
  deriving Repr, DecidableEq

/-- The new-format `done.json` (src/types.ts `DoneFile`): a JS object
keyed by URL, modelled as an association list in first-insertion key
order. -/
structure DoneFile where
  processed : List (String × ProcessedThread)
  deriving Repr, DecidableEq

/-- `isProcessed` (utils.ts line 51): `url in doneFile.processed`. -/
def isProcessed (doneFile : DoneFile) (url : String) : Bool :=
  doneFile.processed.any (·.1 = url)

/-- JS object assignment `processed[url] = v`: overwrite in place when
the key exists, otherwise append (insertion key order). -/
def upsertProcessed (m : List (String × ProcessedThread)) (url : String)
    (v : ProcessedThread) : List (String × ProcessedThread) :=
  if m.any (·.1 = url) then m.map (fun p => if p.1 = url then (url, v) else p)
  else m ++ [(url, v)]

/-- `markProcessed` (utils.ts lines 61-70): record a URL with the given
remote-update time and `downloadedAt := now`. -/
def markProcessed (doneFile : DoneFile) (url : String) (lastUpdated : Int) (now : Int) :
    DoneFile :=
  { processed := upsertProcessed doneFile.processed url ⟨lastUpdated, now⟩ }

/-- The legacy-format migration loop of `loadDoneFile` (utils.ts lines
24-29): `processed[url] = {lastUpdated: now, downloadedAt: now}` for each
legacy URL in order. -/
def migrateProcessedUrls (now : Int) (urls : List String) :
    List (String × ProcessedThread) :=
  urls.foldl (fun m url => upsertProcessed m url ⟨now, now⟩) []

/-- The state-file content as seen after `readFile` + `JSON.parse`,
at the level of the TS types: `unreadable` when reading or parsing
throws, `newFormat` when `raw.processed` is a non-null non-array object,
`legacy` when `raw.processedUrls` is an array, `other` for any other
JSON shape. -/
inductive DoneFileContent where
  | unreadable
  | newFormat (processed : List (String × ProcessedThread))
  | legacy (processedUrls : List String)
  | other
  deriving Repr, DecidableEq

/-- What `loadDoneFile` produced: the in-memory `DoneFile`, the content
written back to the state file during loading (`some` only on
migration, and the `writeFile` is awaited before the function returns),
and whether the catch branch logged an error. -/
structure LoadResult where
  doneFile : DoneFile
  written : Option DoneFile
  errorLogged : Bool
  deriving Repr, DecidableEq

/-- `loadDoneFile` (utils.ts lines 9-41).  The `Except` codomain makes
"aborts the run" expressible: an aborting load would be `.error`.  The
source wraps the whole body in `try/catch` and the catch branch logs the
error and returns `{processed: {}}`, so no input produces `.error`. -/
def loadDoneFile (now : Int) : DoneFileContent → Except String LoadResult
  | .unreadable => .ok ⟨⟨[]⟩, none, true⟩
  | .newFormat p => .ok ⟨⟨p⟩, none, false⟩
  | .legacy urls =>
    let m := migrateProcessedUrls now urls
    .ok ⟨⟨m⟩, some ⟨m⟩, false⟩
  | .other => .ok ⟨⟨[]⟩, none, false⟩

/-- `shouldReDownload` (part_002 lines 173-196): a discovered thread is
due when it was never downloaded; otherwise, when its library timestamp
parses and is strictly newer than the stored `downloadedAt` plus the
1000 ms buffer of line 189.  `libraryTimestamp = none` models a falsy
(missing or empty) scraped timestamp. -/
def shouldReDownload (env : JsDateEnv) (now : Int) (doneFile : DoneFile)
    (url : String) (libraryTimestamp : Option String) : Bool :=
  if ¬ isProcessed doneFile url then true
  else if ¬ jsTruthy libraryTimestamp then false
  else
    match doneFile.processed.lookup url with
    | none => false
    | some record =>
      match parseLibraryTimestamp env now (libraryTimestamp.getD "") with
      | none => false
      | some libDate => libDate > record.downloadedAt + 1000

/-- A concrete `JsDateEnv` for evaluating the model on relative
timestamps (its calendar-dependent members are never reached by the
relative grammar): absolute-date parsing always fails, month
subtraction and end-of-day are identities. -/
def constEnv : JsDateEnv :=
  ⟨fun _ => none, fun d _ => d, fun d => d⟩

/-- How an armed download signal eventually settles: the completion path
(resolve with the local file path, DownloadManager.ts lines 57-67) or a
classified rejection (lines 68-86). -/
inductive DownloadOutcome where
  | completed (filename : String)
  | rejected (message : String) (statusCode : Option Nat)
  deriving Repr, DecidableEq

/-- The promise-relevant state of `DownloadManager`: `downloadPromise`
is the single outstanding signal slot (`none` when idle), holding the
identity of the in-flight promise; `nextId` supplies fresh promise
identities. -/
structure DMState where
  downloadPromise : Option Nat
  nextId : Nat
  deriving Repr, DecidableEq

/-- The arming step of `waitForDownload` (DownloadManager.ts lines
97-107): when a promise is already outstanding it is returned as-is;
otherwise a fresh promise is created and stored in the slot.  Returns
the promise handed to the caller, the state after the call, and whether
a new signal was created.  Every caller of the same promise identity
observes the same `DownloadOutcome` under any resolution assignment. -/
def waitForDownload (s : DMState) : Nat × DMState × Bool :=
  match s.downloadPromise with
  | some p => (p, s, false)
  | none => (s.nextId, { downloadPromise := some s.nextId, nextId := s.nextId + 1 }, true)

/-- One attempt of the retry loop in `runAutoExport` (part_003 lines
298-340): `loadThreadFromURL` either returns entries or throws an error
whose message drives the classification (`includes` checks on lines 306
and 312), with `loginNeeded` the result of the `isLoginPage` probe made
inside the catch. -/
inductive AttemptOutcome where
  | success (entries : List ConversationEntry)
  | failure (message : String) (loginNeeded : Bool)
  deriving Repr, DecidableEq

/-- The `while (attempts < MAX_ATTEMPTS)` retry loop of `runAutoExport`
(part_003 lines 296-340), `MAX_ATTEMPTS = 3`.  `outcome i` is what
attempt number `i` does; `remaining` is `MAX_ATTEMPTS - attempts`, so
the `attempts < MAX_ATTEMPTS` guard is `remaining > 0`.  Returns the
thread entries when some attempt succeeded, and the list of error-log
entries appended by `logError` (the message logged, paired with the
record's URL by the caller). -/
def attemptLoop (outcome : Nat → AttemptOutcome) :
    (remaining attempts : Nat) → Option (List ConversationEntry) × List String
  | 0, _ => (none, [])
  | n + 1, attempts =>
    let attempts' := attempts + 1
    match outcome attempts' with
    | .success es => (some es, [])
    | .failure msg loginNeeded =>
      if containsStr msg "Perplexity API Error" then (none, [msg])
      else if containsStr msg "Timeout waiting for thread data" then
        if loginNeeded then attemptLoop outcome n attempts'
        else if attempts' ≥ 3 then (none, ["Timeout waiting for API response"])
        else attemptLoop outcome n attempts'
      else
        if loginNeeded then attemptLoop outcome n attempts'
        else if attempts' ≥ 3 then (none, [msg])
        else attemptLoop outcome n attempts'

/-- The retry loop started at `attempts = 0`. -/
def runAttempts (outcome : Nat → AttemptOutcome) :
    Option (List ConversationEntry) × List String :=
  attemptLoop outcome 3 0

/-- The `latestUpdated` computation of part_003 lines 384-388: the
maximum entry timestamp (sorting the ISO strings and taking the last is
the chronological maximum), falling back to `now`. -/
def latestUpdatedOf (es : List ConversationEntry) (now : Int) : Int :=
  (es.filterMap (fun e =>
    match e.updated_datetime with
    | some t => some t
    | none => e.entry_updated_datetime)).max?.getD now

/-- The run-wide mutable state touched by one record of the export loop:
the incremental state store and the append-only error log (entries of
`errors.json`, modelled as the logged messages for one URL). -/
structure RunState where
  doneFile : DoneFile
  errors : List String
  deriving Repr, DecidableEq

/-- Processing of one due record by the `for` loop of `runAutoExport`
(part_003 lines 289-402), restricted to its effect on the incremental
state store and the error log: run the retry loop; when it produced no
thread data, `continue` without touching the state store; on success,
`markProcessed` with the latest entry timestamp and save.  The returned
`Bool` is whether `saveDoneFile` (the state-file write) was reached. -/
def processRecord (now : Int) (url : String) (outcome : Nat → AttemptOutcome)
    (st : RunState) : RunState × Bool :=
  match runAttempts outcome with
  | (none, logged) => ({ st with errors := st.errors ++ logged }, false)
  | (some es, logged) =>
    ({ doneFile := markProcessed st.doneFile url (latestUpdatedOf es now) now
       errors := st.errors ++ logged }, true)

/-- The batch loop over the due records (part_003 lines 289-402): each
record is processed in turn; a record whose attempts all failed only
appends to the error log and the loop continues with the rest. -/
def runBatch (now : Int) : List (String × (Nat → AttemptOutcome)) → RunState → RunState
  | [], st => st
  | (url, outcome) :: rest, st =>
    runBatch now rest (processRecord now url outcome st).1



/-! ## Helper lemmas -/

theorem mergeLoop_map_mem (l : List ConversationEntry) :
    ∀ (seen : List String) (u : String),
      u ∈ (mergeLoop seen l).map (·.uuid) ↔ u ∈ l.map (·.uuid) ∧ u ∉ seen := by
  induction l with
  | nil => intro seen u; simp [mergeLoop]
  | cons e rest ih =>
    intro seen u
    by_cases h : e.uuid ∈ seen
    · simp only [mergeLoop, if_pos h, List.map_cons, List.mem_cons, ih]
      by_cases hu : u = e.uuid
      · subst hu; simp [h]
      · simp [hu]
    · simp only [mergeLoop, if_neg h, List.map_cons, List.mem_cons, ih]
      by_cases hu : u = e.uuid
      · subst hu; simp [h]
      · simp [hu]

theorem mergeLoop_map_nodup (l : List ConversationEntry) :
    ∀ seen : List String, ((mergeLoop seen l).map (·.uuid)).Nodup := by
  induction l with
  | nil => intro seen; simp [mergeLoop]
  | cons e rest ih =>
    intro seen
    by_cases h : e.uuid ∈ seen
    · simpa [mergeLoop, h] using ih seen
    · simp only [mergeLoop, if_neg h, List.map_cons, List.nodup_cons]
      exact ⟨fun hmem => ((mergeLoop_map_mem rest _ _).1 hmem).2 (List.mem_cons_self _ _),
        ih _⟩

theorem entryLe_trans : ∀ a b c, entryLe a b → entryLe b c → entryLe a c := by
  intro a b c hab hbc
  simp only [entryLe, decide_eq_true_eq] at *
  exact le_trans hab hbc

theorem entryLe_total : ∀ a b, entryLe a b || entryLe b a := by
  intro a b
  simp only [entryLe, Bool.or_eq_true, decide_eq_true_eq]
  exact le_total _ _

theorem fetchPagesLoop_halt (hasNext : Bool) (cursor : Option String)
    (allEntries : List ConversationEntry) (seen : List String) (requests : Nat)
    (h : ¬ (hasNext = true ∧ jsTruthy cursor = true)) :
    ∀ rs, fetchPagesLoop hasNext cursor allEntries seen requests rs =
      (allEntries, requests) := by
  intro rs
  cases rs with
  | nil => rfl
  | cons r rest => simp only [fetchPagesLoop, if_neg h]

/-! ## Claim theorems -/

/-- C1: merging two partial thread payloads for the same thread id
yields exactly the union of the two payloads' entry uuids with no
duplicates (given that the first payload, which becomes the buffer
verbatim, has no internal uuid duplicates), and an entry of the later
payload is appended exactly when its uuid is not already present. -/
theorem harvest_merge_union (p1 p2 : ConversationResponse)
    (h : (p1.entries.map (·.uuid)).Nodup) :
    (observeMerge p1 p2).entries
        = p1.entries ++ mergeLoop (p1.entries.map (·.uuid)) p2.entries
    ∧ (∀ u, u ∈ (observeMerge p1 p2).entries.map (·.uuid) ↔
        u ∈ p1.entries.map (·.uuid) ∨ u ∈ p2.entries.map (·.uuid))
    ∧ ((observeMerge p1 p2).entries.map (·.uuid)).Nodup
    ∧ (∀ u, u ∈ (mergeLoop (p1.entries.map (·.uuid)) p2.entries).map (·.uuid) ↔
        u ∈ p2.entries.map (·.uuid) ∧ u ∉ p1.entries.map (·.uuid)) := by
  refine ⟨rfl, ?_, ?_, ?_⟩
  · intro u
    simp only [observeMerge, List.map_append, List.mem_append, mergeLoop_map_mem]
    tauto
  · show ((p1.entries ++ mergeLoop (p1.entries.map (·.uuid)) p2.entries).map (·.uuid)).Nodup
    rw [List.map_append, List.nodup_append]
    refine ⟨h, mergeLoop_map_nodup _ _, ?_⟩
    intro u hu1 hu2
    exact ((mergeLoop_map_mem _ _ _).1 hu2).2 hu1
  · intro u
    exact mergeLoop_map_mem _ _ _

/-- C1 witness: a concrete merge of two overlapping payloads. -/
theorem harvest_merge_union_witness :
    ((⟨[⟨"a", none, none⟩], true, some "c"⟩ : ConversationResponse).entries.map (·.uuid)).Nodup
    ∧ ((observeMerge ⟨[⟨"a", none, none⟩], true, some "c"⟩
        ⟨[⟨"a", some 1, none⟩, ⟨"b", none, none⟩], false, none⟩).entries.map (·.uuid)).Nodup :=
  ⟨by decide,
    (harvest_merge_union ⟨[⟨"a", none, none⟩], true, some "c"⟩
      ⟨[⟨"a", some 1, none⟩, ⟨"b", none, none⟩], false, none⟩ (by decide)).2.2.1⟩

/-- C2 counterexample: two distinct entries with equal timestamps
survive the final sort side by side, so the finalized entry list is not
strictly ordered by the updated timestamp. -/
theorem final_sort_not_strict_cex :
    ¬ (loadThreadFinalize
        ⟨[⟨"a", some 5, none⟩, ⟨"b", some 5, none⟩], false, none⟩).entries.Pairwise
      (fun x y => entrySortKey x < entrySortKey y) := by
  have hs : (loadThreadFinalize
      ⟨[⟨"a", some 5, none⟩, ⟨"b", some 5, none⟩], false, none⟩).entries
      = [⟨"a", some 5, none⟩, ⟨"b", some 5, none⟩] := by
    show sortEntries _ = _
    exact List.mergeSort_of_sorted (by simp [List.pairwise_cons, entryLe, entrySortKey])
  rw [hs]
  intro hp
  have := (List.pairwise_cons.1 hp).1 _ (List.mem_cons_self _ _)
  simp [entrySortKey] at this

/-- C2 (amended): the final sort of `loadThreadFromURL` leaves the
entries ordered non-decreasingly by the updated timestamp (strictly
only when timestamps are pairwise distinct), and applying the sort a
second time leaves the list unchanged. -/
theorem final_sort_sorted_idempotent (conv : ConversationResponse) :
    (loadThreadFinalize conv).entries.Pairwise
      (fun a b => entrySortKey a ≤ entrySortKey b)
    ∧ loadThreadFinalize (loadThreadFinalize conv) = loadThreadFinalize conv := by
  constructor
  · have h := List.sorted_mergeSort entryLe_trans entryLe_total conv.entries
    exact h.imp (fun hab => by simpa [entryLe] using hab)
  · have he : sortEntries (sortEntries conv.entries) = sortEntries conv.entries :=
      List.mergeSort_of_sorted (List.sorted_mergeSort entryLe_trans entryLe_total _)
    simp [loadThreadFinalize, he]

/-- C9 counterexample: an observation whose `has_next_page` is `false`
and whose cursor is `null` does not overwrite the buffered pagination
flag/cursor — the buffer keeps its previous values, contradicting
"overwritten for every such observation". -/
theorem cursor_overwrite_conditional_cex :
    (observeMerge ⟨[], true, some "c"⟩ ⟨[], false, none⟩).has_next_page = true
    ∧ (observeMerge ⟨[], true, some "c"⟩ ⟨[], false, none⟩).next_cursor = some "c"
    ∧ ¬ ((observeMerge ⟨[], true, some "c"⟩ ⟨[], false, none⟩).has_next_page
          = (⟨[], false, none⟩ : ConversationResponse).has_next_page
        ∧ (observeMerge ⟨[], true, some "c"⟩ ⟨[], false, none⟩).next_cursor
          = (⟨[], false, none⟩ : ConversationResponse).next_cursor) := by
  refine ⟨rfl, rfl, ?_⟩
  intro hcontra
  exact absurd hcontra.1 (by decide)

/-- C9 (amended): on a subsequent observation for an already-buffered
thread id, the pagination flag and cursor are overwritten with the new
observation's values exactly when `!!(has_next_page || next_cursor)` is
truthy for that observation; otherwise the buffered values are kept. -/
theorem cursor_overwrite_conditional (existing data : ConversationResponse) :
    (observeMerge existing data).has_next_page
      = (if hasCursorOf data then data.has_next_page else existing.has_next_page)
    ∧ (observeMerge existing data).next_cursor
      = (if hasCursorOf data then data.next_cursor else existing.next_cursor) :=
  ⟨rfl, rfl⟩

/-- C10: whatever way the pagination loop terminates, the conversation
returned by `fetchNextPages` always carries `has_next_page = false` and
a null cursor, so the cursor never escapes downstream. -/
theorem fetchNextPages_clears_cursor (firstPage : ConversationResponse)
    (responses : List PageResponse) :
    (fetchNextPages firstPage responses).1.has_next_page = false
    ∧ (fetchNextPages firstPage responses).1.next_cursor = none :=
  ⟨rfl, rfl⟩

/-- C5 counterexample: a page whose entries are all duplicates
contributes zero new entries, yet pagination does not stop there — a
second page request is still issued (the guard checks the raw entry
count, not the deduplicated one). -/
theorem pagination_duplicate_page_continues_cex :
    mergeLoop ((⟨[⟨"a", some 1, none⟩], true, some "c1"⟩ :
        ConversationResponse).entries.map (·.uuid))
      (⟨none, [⟨"a", some 9, none⟩], true, some "c2"⟩ : PageResponse).entries = []
    ∧ (fetchNextPages ⟨[⟨"a", some 1, none⟩], true, some "c1"⟩
        [⟨none, [⟨"a", some 9, none⟩], true, some "c2"⟩,
         ⟨none, [⟨"b", some 0, none⟩], false, none⟩]).2 = 2 := by
  exact ⟨by decide, by decide⟩

/-- C5 (amended): a first page with `hasMore` false or a null cursor
terminates without issuing any page request and returns the single-page
result; and during the loop, a response with an error, with a raw-empty
entry list, with `has_next_page` false, or with a null cursor stops
pagination — no later response is consumed and at most one further
request is issued. -/
theorem pagination_termination :
    (∀ (fp : ConversationResponse) (rs : List PageResponse),
      fp.has_next_page = false ∨ fp.next_cursor = none →
      fetchNextPages fp rs = ({ fp with has_next_page := false, next_cursor := none }, 0))
    ∧ (∀ (r : PageResponse) (rest rest' : List PageResponse) (hasNext : Bool)
        (cursor : Option String) (allEntries : List ConversationEntry)
        (seen : List String) (n : Nat),
        r.error.isSome = true ∨ r.entries = [] ∨ r.has_next_page = false
          ∨ r.next_cursor = none →
        fetchPagesLoop hasNext cursor allEntries seen n (r :: rest)
          = fetchPagesLoop hasNext cursor allEntries seen n (r :: rest')
        ∧ (fetchPagesLoop hasNext cursor allEntries seen n (r :: rest)).2 ≤ n + 1) := by
  constructor
  · intro fp rs h
    have hng : ¬ (fp.has_next_page = true ∧ jsTruthy fp.next_cursor = true) := by
      rcases h with h | h
      · simp [h]
      · simp [h, jsTruthy]
    unfold fetchNextPages
    rw [fetchPagesLoop_halt _ _ _ _ _ hng rs]
  · intro r rest rest' hasNext cursor allEntries seen n h
    by_cases hg : hasNext = true ∧ jsTruthy cursor = true
    · simp only [fetchPagesLoop, if_pos hg]
      by_cases he : r.error.isSome = true
      · simp [he]
      · by_cases hemp : r.entries.isEmpty = true
        · simp [he, hemp]
        · have hst : r.has_next_page = false ∨ r.next_cursor = none := by
            rcases h with h | h | h | h
            · exact absurd h he
            · exact absurd (by simp [h]) hemp
            · exact Or.inl h
            · exact Or.inr h
          have hng2 : ¬ ((if r.has_next_page ∧ ¬ jsTruthy r.next_cursor then false
              else r.has_next_page) = true ∧ jsTruthy r.next_cursor = true) := by
            rcases hst with h' | h'
            · simp [h']
            · simp [h', jsTruthy]
          rw [if_neg he, if_neg he, if_neg hemp, if_neg hemp]
          rw [fetchPagesLoop_halt _ _ _ _ _ hng2 rest,
            fetchPagesLoop_halt _ _ _ _ _ hng2 rest']
          exact ⟨rfl, Nat.le_refl _⟩
    · rw [fetchPagesLoop_halt _ _ _ _ _ hg (r :: rest),
        fetchPagesLoop_halt _ _ _ _ _ hg (r :: rest')]
      exact ⟨rfl, Nat.le_succ _⟩

/-- C5 witness: `has_next_page = true` with a null cursor on the first
page — no request issued, single-page result. -/
theorem pagination_termination_witness :
    ((⟨[], true, none⟩ : ConversationResponse).has_next_page = false
      ∨ (⟨[], true, none⟩ : ConversationResponse).next_cursor = none)
    ∧ fetchNextPages ⟨[], true, none⟩ [] = (⟨[], false, none⟩, 0) :=
  ⟨Or.inr rfl, pagination_termination.1 ⟨[], true, none⟩ [] (Or.inr rfl)⟩

/-- C3 counterexample: `shouldReDownload` compares the parsed library
timestamp against the stored `downloadedAt` (the last local fetch time),
not against `lastUpdated` (the last remote modification time).  Here
`now = 36000000`: the stored record has `lastUpdated` 10 hours old and
`downloadedAt` 1 hour old; "2 hours ago" parses successfully and exceeds
`lastUpdated + 1000`, so the claim's criterion says "due", but the code
classifies the candidate as not due. -/
theorem classify_uses_downloadedAt_cex :
    parseLibraryTimestamp constEnv 36000000 "2 hours ago" = some 28800000
    ∧ ((28800000 : Int) > 0 + 1000)
    ∧ shouldReDownload constEnv 36000000 ⟨[("u", ⟨0, 32400000⟩)]⟩ "u"
        (some "2 hours ago") = false :=
  ⟨by decide, by decide, by decide⟩

/-- C3 (amended): for a stored record whose raw timestamp text parses,
the candidate is due exactly when the parsed timestamp strictly exceeds
the stored record's `downloadedAt` (last local fetch time) plus the
1-second buffer; in particular "2 hours ago" against a `downloadedAt`
of 3 hours ago is due, and against a `downloadedAt` of 1 hour ago is
not due. -/
theorem classify_due_iff_downloadedAt :
    (∀ (env : JsDateEnv) (now : Int) (doneFile : DoneFile) (url : String)
      (ts : String) (record : ProcessedThread) (d : Int),
      isProcessed doneFile url = true →
      doneFile.processed.lookup url = some record →
      jsTruthy (some ts) = true →
      parseLibraryTimestamp env now ts = some d →
      (shouldReDownload env now doneFile url (some ts) = true
        ↔ d > record.downloadedAt + 1000))
    ∧ shouldReDownload constEnv 36000000 ⟨[("u", ⟨0, 25200000⟩)]⟩ "u"
        (some "2 hours ago") = true
    ∧ shouldReDownload constEnv 36000000 ⟨[("u", ⟨0, 32400000⟩)]⟩ "u"
        (some "2 hours ago") = false := by
  refine ⟨?_, by decide, by decide⟩
  intro env now doneFile url ts record d hp hl ht hparse
  simp only [shouldReDownload, hp, ht, Option.getD_some, hl, hparse]
  simp [decide_eq_true_eq]

/-- C3 witness: the "3 hours ago `downloadedAt`" scenario instantiating
the amended criterion. -/
theorem classify_due_iff_downloadedAt_witness :
    isProcessed ⟨[("u", ⟨0, 25200000⟩)]⟩ "u" = true
    ∧ (⟨[("u", ⟨0, 25200000⟩)]⟩ : DoneFile).processed.lookup "u" = some ⟨0, 25200000⟩
    ∧ jsTruthy (some "2 hours ago") = true
    ∧ parseLibraryTimestamp constEnv 36000000 "2 hours ago" = some 28800000
    ∧ (shouldReDownload constEnv 36000000 ⟨[("u", ⟨0, 25200000⟩)]⟩ "u"
        (some "2 hours ago") = true ↔ (28800000 : Int) > 25200000 + 1000) :=
  ⟨by decide, by decide, by decide, by decide,
    classify_due_iff_downloadedAt.1 constEnv 36000000 ⟨[("u", ⟨0, 25200000⟩)]⟩ "u"
      "2 hours ago" ⟨0, 25200000⟩ 28800000
      (by decide) (by decide) (by decide) (by decide)⟩

/-- C4 counterexample: loading a corrupt (unreadable or unparseable)
state file does not abort — `loadDoneFile` returns normally with an
empty state after logging the error. -/
theorem corrupt_state_no_abort_cex :
    loadDoneFile 0 .unreadable = .ok ⟨⟨[]⟩, none, true⟩ := rfl

/-- C4 (amended): loading the state file never aborts the run — a
corrupt file is caught, the error is logged and an empty state is
returned; and a record whose attempts all failed never aborts the batch
loop, which continues with the remaining records after appending to the
error log. -/
theorem load_errors_never_abort :
    (∀ (now : Int) (c : DoneFileContent), ∃ r, loadDoneFile now c = .ok r)
    ∧ (∀ now : Int, loadDoneFile now .unreadable = .ok ⟨⟨[]⟩, none, true⟩)
    ∧ (∀ (now : Int) (url : String) (outcome : Nat → AttemptOutcome)
        (rest : List (String × (Nat → AttemptOutcome))) (st : RunState),
        (runAttempts outcome).1 = none →
        runBatch now ((url, outcome) :: rest) st
          = runBatch now rest { st with errors := st.errors ++ (runAttempts outcome).2 }) := by
  refine ⟨?_, ?_, ?_⟩
  · intro now c
    cases c with
    | unreadable => exact ⟨_, rfl⟩
    | newFormat p => exact ⟨_, rfl⟩
    | legacy urls => exact ⟨_, rfl⟩
    | other => exact ⟨_, rfl⟩
  · intro now
    rfl
  · intro now url outcome rest st hnone
    have hp : runAttempts outcome = (none, (runAttempts outcome).2) := by
      rw [← hnone]
    have hpr : processRecord now url outcome st
        = ({ st with errors := st.errors ++ (runAttempts outcome).2 }, false) := by
      unfold processRecord
      rw [hp]
    show runBatch now rest (processRecord now url outcome st).1 = _
    rw [hpr]

/-- C4 witness: a record failing all attempts only extends the error
log; the batch loop continues. -/
theorem load_errors_never_abort_witness :
    (runAttempts (fun _ => .failure "ECONNRESET" false)).1 = none
    ∧ runBatch 0 [("u", fun _ => .failure "ECONNRESET" false)] ⟨⟨[]⟩, []⟩
        = runBatch 0 []
            ⟨⟨[]⟩, [] ++ (runAttempts (fun _ => .failure "ECONNRESET" false)).2⟩ :=
  ⟨by decide, load_errors_never_abort.2.2 0 "u" _ [] ⟨⟨[]⟩, []⟩ (by decide)⟩

/-- C6: a second `waitForDownload` call while the first call's promise
is still outstanding creates no second signal — it returns the very
same in-flight promise with the state untouched, so both callers
observe the same resolution or rejection under any resolution
assignment. -/
theorem waitForDownload_shares_promise (s0 : DMState)
    (h : s0.downloadPromise = none) :
    waitForDownload (waitForDownload s0).2.1
      = ((waitForDownload s0).1, (waitForDownload s0).2.1, false)
    ∧ ∀ resolve : Nat → DownloadOutcome,
        resolve (waitForDownload (waitForDownload s0).2.1).1
          = resolve (waitForDownload s0).1 := by
  have h1 : waitForDownload s0
      = (s0.nextId, ⟨some s0.nextId, s0.nextId + 1⟩, true) := by
    simp [waitForDownload, h]
  constructor
  · rw [h1]
    rfl
  · intro resolve
    rw [h1]
    rfl

/-- C6 witness: the two-call scenario from the idle state. -/
theorem waitForDownload_shares_promise_witness :
    (⟨none, 0⟩ : DMState).downloadPromise = none
    ∧ waitForDownload (waitForDownload ⟨none, 0⟩).2.1
        = ((waitForDownload ⟨none, 0⟩).1, (waitForDownload ⟨none, 0⟩).2.1, false) :=
  ⟨rfl, (waitForDownload_shares_promise ⟨none, 0⟩ rfl).1⟩

/-- C7: a record whose three attempts all fail with transient errors
(no remote-API-payload marker in the message, no login page detected)
is logged to the error log exactly once and leaves the incremental
state store entry untouched — `markProcessed` and the state-file write
are never reached. -/
theorem transient_failures_leave_state
    (now : Int) (url : String) (outcome : Nat → AttemptOutcome) (st : RunState)
    (m1 m2 m3 : String)
    (h1 : outcome 1 = .failure m1 false) (h2 : outcome 2 = .failure m2 false)
    (h3 : outcome 3 = .failure m3 false)
    (ha1 : containsStr m1 "Perplexity API Error" = false)
    (ha2 : containsStr m2 "Perplexity API Error" = false)
    (ha3 : containsStr m3 "Perplexity API Error" = false) :
    ∃ m, processRecord now url outcome st
      = ({ doneFile := st.doneFile, errors := st.errors ++ [m] }, false) := by
  have hrun : ∃ m, runAttempts outcome = (none, [m]) := by
    by_cases ht3 : containsStr m3 "Timeout waiting for thread data" = true
    · exact ⟨"Timeout waiting for API response",
        by simp [runAttempts, attemptLoop, h1, h2, h3, ha1, ha2, ha3, ht3]⟩
    · exact ⟨m3,
        by simp [runAttempts, attemptLoop, h1, h2, h3, ha1, ha2, ha3, ht3]⟩
  obtain ⟨m, hm⟩ := hrun
  refine ⟨m, ?_⟩
  unfold processRecord
  rw [hm]

/-- C7 witness: three identical transient network failures. -/
theorem transient_failures_leave_state_witness :
    ((fun _ => AttemptOutcome.failure "ECONNRESET" false) 1
        = AttemptOutcome.failure "ECONNRESET" false)
    ∧ containsStr "ECONNRESET" "Perplexity API Error" = false
    ∧ ∃ m, processRecord 0 "u" (fun _ => .failure "ECONNRESET" false) ⟨⟨[]⟩, []⟩
        = ({ doneFile := ⟨[]⟩, errors := [] ++ [m] }, false) :=
  ⟨rfl, by decide,
    transient_failures_leave_state 0 "u" (fun _ => .failure "ECONNRESET" false)
      ⟨⟨[]⟩, []⟩ "ECONNRESET" "ECONNRESET" "ECONNRESET"
      rfl rfl rfl (by decide) (by decide) (by decide)⟩

theorem foldl_upsert_fresh (v : ProcessedThread) :
    ∀ (urls : List String) (acc : List (String × ProcessedThread)),
      urls.Nodup → (∀ u ∈ urls, acc.any (·.1 = u) = false) →
      urls.foldl (fun m url => upsertProcessed m url v) acc
        = acc ++ urls.map (fun u => (u, v)) := by
  intro urls
  induction urls with
  | nil => intro acc _ _; simp
  | cons u us ih =>
    intro acc hnd hfresh
    have hu : acc.any (·.1 = u) = false := hfresh u (List.mem_cons_self _ _)
    have hup : upsertProcessed acc u v = acc ++ [(u, v)] := by
      simp [upsertProcessed, hu]
    have hfresh' : ∀ u' ∈ us, (acc ++ [(u, v)]).any (·.1 = u') = false := by
      intro u' hu'
      have hq1 : acc.any (·.1 = u') = false := hfresh u' (List.mem_cons_of_mem _ hu')
      have hq2 : ¬ (u = u') := fun he => (List.nodup_cons.1 hnd).1 (he ▸ hu')
      simp [List.any_append, hq1, hq2]
    rw [List.foldl_cons, hup, ih (acc ++ [(u, v)]) (List.Nodup.of_cons hnd) hfresh']
    simp

/-- C8: migrating a legacy state file with distinct processed URLs
yields exactly one entry per URL, every entry carrying
`lastUpdated = downloadedAt = now` (the single migration-time
timestamp), and the migrated form is recorded as written back to the
state file before loading returns. -/
theorem legacy_migration_correct (now : Int) (urls : List String) (h : urls.Nodup) :
    loadDoneFile now (.legacy urls)
      = .ok ⟨⟨urls.map (fun u => (u, ⟨now, now⟩))⟩,
          some ⟨urls.map (fun u => (u, ⟨now, now⟩))⟩, false⟩
    ∧ (migrateProcessedUrls now urls).length = urls.length
    ∧ ∀ p ∈ migrateProcessedUrls now urls,
        p.2.lastUpdated = now ∧ p.2.downloadedAt = now := by
  have hm : migrateProcessedUrls now urls = urls.map (fun u => (u, ⟨now, now⟩)) := by
    have hres := foldl_upsert_fresh ⟨now, now⟩ urls [] h (fun u _ => rfl)
    simpa [migrateProcessedUrls] using hres
  refine ⟨?_, ?_, ?_⟩
  · simp [loadDoneFile, hm]
  · simp [hm]
  · intro p hp
    rw [hm] at hp
    obtain ⟨u, _, rfl⟩ := List.mem_map.1 hp
    exact ⟨rfl, rfl⟩

/-- C8 witness: a two-URL legacy file. -/
theorem legacy_migration_correct_witness :
    (["u1", "u2"] : List String).Nodup
    ∧ (migrateProcessedUrls 5 ["u1", "u2"]).length = 2 :=
  ⟨by decide, (legacy_migration_correct 5 ["u1", "u2"] (by decide)).2.1⟩
